import Mathlib

/-!
  # Verification of the dual-backend persistence layer of a table-ordering app

  Shallow embedding of the `StorageService` persistence layer
  (`services/storageService.ts`), consisting of the customer-view
  table-session state machine (`ClientView`), the resilient
  key-value wrapper (`safeStorage`), and the report generator
  (`services/geminiService.ts`).

  Modelling conventions:
  * JavaScript numbers carrying money are embedded as `ℚ`; stock counters
    as `Int` (the remote path can drive them negative); quantities and
    timestamps as `Nat`.
  * The browser `localStorage` / in-memory `Map` pair behind `safeStorage`
    is an association list; the Firestore collections of the cloud branch
    and the JSON-parsed arrays of the local branch are lists of records.
  * Each `StorageService` operation has two branches in the source,
    selected by `isCloud()`; each is embedded as its own Lean function
    (`…_local`, `…_cloud`) acting on the same `Store` shape.
  * Firestore's `addDoc` generates a document id; the embedding takes the
    generated id as an explicit `freshId` argument.  `updateDoc` on an
    absent document rejects; the embedding models the successful
    (document-present) executions and leaves the store unchanged on an
    absent document.
-/

/-- Modelled from the spec: product category, "enum over a fixed small set"
(`types.ts` is not part of the sources; the two members visible in
`INITIAL_PRODUCTS` are `BEBIDAS` and `TIRA_GOSTO`). -/
inductive Category where
  | BEBIDAS
  | TIRA_GOSTO
deriving DecidableEq, Repr

/-- Modelled from the spec: order status enum from `types.ts` (not in the
sources): "status (enum: PENDING → PREPARING → DELIVERED → PAID, or →
CANCELED from any non-terminal state)". -/
inductive OrderStatus where
  | PENDING
  | PREPARING
  | DELIVERED
  | PAID
  | CANCELED
deriving DecidableEq, Repr

/-- Modelled from the spec: table-session status enum from `types.ts` (not
in the sources); the members used by the code are `OPEN` and
`CLOSING_REQUESTED` (absence of the record is the third, implicit state). -/
inductive TableStatus where
  | OPEN
  | CLOSING_REQUESTED
deriving DecidableEq, Repr

/-- A catalog product (`Product` in `types.ts`, with the field shapes of §3
of the spec: price a decimal, stock an integer counter). -/
structure Product where
  id : String
  name : String
  description : String
  price : ℚ
  category : Category
  stock : Int
  imageUrl : String
deriving DecidableEq, Repr

/-- A line item of an order: the snapshot `createOrder` takes of a product
(`productId`, `name`, `price` at order time, `quantity`). -/
structure OrderItem where
  productId : String
  name : String
  price : ℚ
  quantity : Nat
deriving DecidableEq, Repr

/-- An order (`Order` in `types.ts`): id, table, status, timestamp, line
items, precomputed total, free-text observation. -/
structure Order where
  id : String
  tableId : Int
  status : OrderStatus
  timestamp : Nat
  items : List OrderItem
  total : ℚ
  observation : String
deriving DecidableEq, Repr

/-- A table-session record as written by `requestTableClose`: a status and
the chosen payment method (a plain string in the source's signature). -/
structure TableSession where
  status : TableStatus
  paymentMethod : String
deriving DecidableEq, Repr

/-- The three entity collections both backends manage: the `products`,
`orders` and `tables` Firestore collections in cloud mode, or the three
JSON-serialized values behind `STORAGE_KEYS` in local mode.  `tables` is
keyed by table id. -/
structure Store where
  products : List Product
  orders : List Order
  tables : List (Int × TableSession)
deriving DecidableEq, Repr

/-! ## List helpers

The local branches manipulate JSON arrays through `Array.prototype.findIndex`
followed by an index assignment; `findIndex` and `modifyAt` embed that pair.
-/

/-- The `Array.prototype.findIndex` idiom: index of the first element satisfying `f`. -/
def findIndex {α : Type} (f : α → Bool) : List α → Option Nat
  | [] => none
  | a :: as => if f a then some 0 else (findIndex f as).map (· + 1)

/-- Replace the element at position `i` by `f` of itself (the JS idiom
`arr[i] = f(arr[i])` after a successful `findIndex`); out-of-range indices
leave the list unchanged. -/
def modifyAt {α : Type} (l : List α) (i : Nat) (f : α → α) : List α :=
  match l[i]? with
  | some a => l.set i (f a)
  | none => l

/-! ## StorageService mutations — `saveProduct` -/

/-- Local branch of `StorageService.saveProduct`: update in place when the
id is already stored; otherwise merge by name (summing stock, overwriting
price — the local branch touches no other field); otherwise append. -/
def saveProduct_local (products : List Product) (product : Product) : List Product :=
  let existingIndex := findIndex (fun p => p.id == product.id) products
  let nameIndex := findIndex (fun p => p.name == product.name && p.id != product.id) products
  match existingIndex with
  | some i => products.set i product
  | none =>
    match nameIndex with
    | some i => modifyAt products i
        (fun p => { p with stock := p.stock + product.stock, price := product.price })
    | none => products ++ [product]

/-- Cloud branch of `StorageService.saveProduct`: an id longer than 10
characters is treated as an existing Firestore document and overwritten
(`updateDoc` with every field but `id`); otherwise the first document with
the same name, if any, absorbs the stock and takes the incoming price,
description, and image — the image only when the incoming one is non-empty
(`product.imageUrl || currentData.imageUrl`); otherwise `addDoc` creates a
document under the generated `freshId`. -/
def saveProduct_cloud (products : List Product) (product : Product) (freshId : String) :
    List Product :=
  if product.id.length > 10 then
    match findIndex (fun p => p.id == product.id) products with
    | some i => modifyAt products i (fun _ => product)
    | none => products
  else
    match findIndex (fun p => p.name == product.name) products with
    | some i => modifyAt products i
        (fun p => { p with
          stock := p.stock + product.stock,
          price := product.price,
          description := product.description,
          imageUrl := if product.imageUrl == "" then p.imageUrl else product.imageUrl })
    | none => products ++ [{ product with id := freshId }]

/-! ## StorageService mutations — `createOrder` -/

/-- The `orderData` object `createOrder` builds before branching on the
backend: status `PENDING`, the current timestamp, per-item snapshots of
`(productId, name, price, quantity)`, and the total
`items.reduce((acc, curr) => acc + curr.product.price * curr.quantity, 0)`. -/
def mkOrder (id : String) (tableId : Int) (items : List (Product × Nat))
    (observation : String) (now : Nat) : Order :=
  { id := id
    tableId := tableId
    status := OrderStatus.PENDING
    timestamp := now
    items := items.map (fun i =>
      { productId := i.1.id, name := i.1.name, price := i.1.price, quantity := i.2 })
    total := items.foldl (fun acc curr => acc + curr.1.price * (curr.2 : ℚ)) 0
    observation := observation }

/-- One step of the local stock update in `createOrder`: find the product by
id and clamp the decrement at zero (`Math.max(0, stock - quantity)`); an
unmatched product id is skipped. -/
def decStock (products : List Product) (item : Product × Nat) : List Product :=
  match findIndex (fun p => p.id == item.1.id) products with
  | some i => modifyAt products i (fun p => { p with stock := max 0 (p.stock - (item.2 : Int)) })
  | none => products

/-- One step of the cloud stock update in `createOrder`:
`updateDoc(pRef, { stock: increment(-quantity) })` — an unclamped decrement
of the matching document (an absent document makes the detached update
promise reject, leaving the collection unchanged). -/
def decStockCloud (products : List Product) (item : Product × Nat) : List Product :=
  match findIndex (fun p => p.id == item.1.id) products with
  | some i => modifyAt products i (fun p => { p with stock := p.stock - (item.2 : Int) })
  | none => products

/-- Local branch of `StorageService.createOrder`: decrement (clamped) the
stock of every matched line item, then append the new order under the id
`Date.now().toString()`. -/
def createOrder_local (s : Store) (tableId : Int) (items : List (Product × Nat))
    (observation : String) (now : Nat) : Store :=
  { s with
    products := items.foldl decStock s.products
    orders := s.orders ++ [mkOrder (toString now) tableId items observation now] }

/-- Cloud branch of `StorageService.createOrder`: `addDoc` the order under
the generated id, then issue one unclamped decrement per line item. -/
def createOrder_cloud (s : Store) (tableId : Int) (items : List (Product × Nat))
    (observation : String) (now : Nat) (freshId : String) : Store :=
  { s with
    products := items.foldl decStockCloud s.products
    orders := s.orders ++ [{ mkOrder "" tableId items observation now with id := freshId }] }

/-! ## StorageService mutations — `updateOrderStatus` -/

/-- One step of the local restock on cancellation: find the product by the
line item's `productId` and add the quantity back (no clamp); an unmatched
id is skipped. -/
def restock (products : List Product) (item : OrderItem) : List Product :=
  match findIndex (fun p => p.id == item.productId) products with
  | some i => modifyAt products i (fun p => { p with stock := p.stock + (item.quantity : Int) })
  | none => products

/-- Local branch of `StorageService.updateOrderStatus`: if the order id is
absent nothing happens; otherwise, when the new status is `CANCELED` and
the order was not already `CANCELED`, every line item's quantity is
restored to the matching product's stock; in every found case the order's
status is overwritten. -/
def updateOrderStatus_local (s : Store) (orderId : String) (status : OrderStatus) : Store :=
  match findIndex (fun o => o.id == orderId) s.orders with
  | none => s
  | some i =>
    match s.orders[i]? with
    | none => s
    | some order =>
      let products' :=
        if status == OrderStatus.CANCELED && order.status != OrderStatus.CANCELED then
          order.items.foldl restock s.products
        else s.products
      { s with
        products := products'
        orders := s.orders.set i { order with status := status } }

/-- Cloud branch of `StorageService.updateOrderStatus`: a single
`updateDoc(doc(db, 'orders', orderId), { status })`.  The source's own
comment — "If cancelled, restore stock logic (omitted for brevity)" —
acknowledges that no stock restoration is performed on this branch. -/
def updateOrderStatus_cloud (s : Store) (orderId : String) (status : OrderStatus) : Store :=
  { s with
    orders := s.orders.map (fun o => if o.id == orderId then { o with status := status } else o) }

/-! ## StorageService mutations — `requestTableClose` and `finalizeTable` -/

/-- Local branch of `StorageService.requestTableClose`: upsert the table's
session record with status `CLOSING_REQUESTED` and the payment method. -/
def requestTableClose_local (s : Store) (tableId : Int) (paymentMethod : String) : Store :=
  { s with
    tables := (s.tables.filter (fun kv => !(kv.1 == tableId))) ++
      [(tableId, { status := TableStatus.CLOSING_REQUESTED, paymentMethod := paymentMethod })] }

/-- Local branch of `StorageService.finalizeTable`: delete the table's
session record, then set to `PAID` the status of every order of that table
that is not `CANCELED` (orders already `PAID` are reassigned `PAID`). -/
def finalizeTable_local (s : Store) (tableId : Int) : Store :=
  { s with
    tables := s.tables.filter (fun kv => !(kv.1 == tableId))
    orders := s.orders.map (fun o =>
      if o.tableId == tableId && o.status != OrderStatus.CANCELED then
        { o with status := OrderStatus.PAID }
      else o) }

/-- Cloud branch of `StorageService.finalizeTable`: delete the table's
session document, then update to `PAID` every order of that table whose
status is neither `PAID` nor `CANCELED`. -/
def finalizeTable_cloud (s : Store) (tableId : Int) : Store :=
  { s with
    tables := s.tables.filter (fun kv => !(kv.1 == tableId))
    orders := s.orders.map (fun o =>
      if o.tableId == tableId && o.status != OrderStatus.PAID &&
          o.status != OrderStatus.CANCELED then
        { o with status := OrderStatus.PAID }
      else o) }

/-! ## safeStorage — the resilient key-value wrapper

`safeStorage` pairs the browser's durable `localStorage` with a volatile
`Map` (`memoryStore`).  Storage-access denial (tracking prevention) makes
every `localStorage` access throw; the embedding carries a `denied` flag
and models a throwing access as the `Except.error` branch.  Note the JS
idiom `memoryStore.get(key) || null`: a stored *empty* string is falsy and
collapses to `null`.
-/

/-- Reading a key, as `Map.prototype.get` / `localStorage.getItem`, on an association list. -/
def mapGet : List (String × String) → String → Option String
  | [], _ => none
  | (k', v) :: rest, k => if k' == k then some v else mapGet rest k

/-- Writing a key, as `Map.prototype.set` / `localStorage.setItem`, on an association list:
replace the binding of `k` or append a fresh one. -/
def mapSet : List (String × String) → String → String → List (String × String)
  | [], k, v => [(k, v)]
  | (k', v') :: rest, k, v =>
    if k' == k then (k, v) :: rest else (k', v') :: mapSet rest k v

/-- Deleting a key, as `Map.prototype.delete` / `localStorage.removeItem`, on an association
list. -/
def mapDel (m : List (String × String)) (k : String) : List (String × String) :=
  m.filter (fun kv => !(kv.1 == k))

/-- The JS expression `memoryStore.get(key) || null`: an absent key or a
stored empty string both yield `null`. -/
def memGetOrNull (m : List (String × String)) (k : String) : Option String :=
  match mapGet m k with
  | some v => if v == "" then none else some v
  | none => none

/-- The state behind `safeStorage`: the volatile `memoryStore` map, the
durable `localStorage` contents, and whether storage access is denied
(every `localStorage` call throws). -/
structure StorageState where
  memoryStore : List (String × String)
  localStorageData : List (String × String)
  denied : Bool
deriving DecidableEq, Repr

/-- A raw `localStorage.getItem`: throws under denial. -/
def lsGetItem (s : StorageState) (k : String) : Except Unit (Option String) :=
  if s.denied then Except.error () else Except.ok (mapGet s.localStorageData k)

/-- A raw `localStorage.setItem`: throws under denial. -/
def lsSetItem (s : StorageState) (k v : String) : Except Unit StorageState :=
  if s.denied then Except.error ()
  else Except.ok { s with localStorageData := mapSet s.localStorageData k v }

/-- A raw `localStorage.removeItem`: throws under denial. -/
def lsRemoveItem (s : StorageState) (k : String) : Except Unit StorageState :=
  if s.denied then Except.error ()
  else Except.ok { s with localStorageData := mapDel s.localStorageData k }

/-- The `safeStorage.getItem` wrapper: try `localStorage`; a `null` result falls back to
the memory map when it holds the key (`memoryStore.get(key) || null`); a
thrown access error falls back to the memory map.  Total — every raw access
is wrapped. -/
def safeGetItem (s : StorageState) (k : String) : Option String :=
  match lsGetItem s k with
  | Except.ok item =>
    match item with
    | none => if (mapGet s.memoryStore k).isSome then memGetOrNull s.memoryStore k else none
    | some v => some v
  | Except.error _ => memGetOrNull s.memoryStore k

/-- The `safeStorage.setItem` wrapper: always record the value in the memory map first,
then attempt the durable write, silently ignoring a thrown access error.
Total — the raw write is wrapped. -/
def safeSetItem (s : StorageState) (k v : String) : StorageState :=
  let s1 := { s with memoryStore := mapSet s.memoryStore k v }
  match lsSetItem s1 k v with
  | Except.ok s2 => s2
  | Except.error _ => s1

/-- The `safeStorage.removeItem` wrapper: delete from the memory map, then attempt the
durable delete, silently ignoring a thrown access error.  Total. -/
def safeRemoveItem (s : StorageState) (k : String) : StorageState :=
  let s1 := { s with memoryStore := mapDel s.memoryStore k }
  match lsRemoveItem s1 k with
  | Except.ok s2 => s2
  | Except.error _ => s1

/-! ## ClientView — the table-session consumer state machine

The `subscribeTables` handler in `ClientView` remembers the last observed
session status in `lastStatusRef` and owns the `isSessionEnded` flag: a
snapshot with the table's record absent *while the remembered status is
`CLOSING_REQUESTED`* flips `isSessionEnded` to `true`; afterwards the
remembered status becomes the observed one (`OPEN` when the record is
absent).
-/

/-- The consumer's state: `lastStatusRef.current` and the `isSessionEnded`
flag. -/
structure SessionState where
  lastStatus : TableStatus
  isSessionEnded : Bool
deriving DecidableEq, Repr

/-- The initial consumer state: `lastStatusRef` starts at `OPEN`,
`isSessionEnded` at `false`. -/
def initialSession : SessionState :=
  { lastStatus := TableStatus.OPEN, isSessionEnded := false }

/-- One invocation of the `subscribeTables` callback, fed the table's
record from the snapshot (`none` when absent).  Absence while the
remembered status is `CLOSING_REQUESTED` sets `isSessionEnded`; then
`lastStatusRef.current = myTable?.status || OPEN`. -/
def tablesCallback (st : SessionState) (myTable : Option TableStatus) : SessionState :=
  let ended :=
    if myTable.isNone && (st.lastStatus == TableStatus.CLOSING_REQUESTED) then true
    else st.isSessionEnded
  let currentStatus := myTable.getD TableStatus.OPEN
  { lastStatus := currentStatus, isSessionEnded := ended }

/-- The consumer state after a sequence of snapshot observations delivered
to the `subscribeTables` callback. -/
def runSession (obs : List (Option TableStatus)) : SessionState :=
  obs.foldl tablesCallback initialSession

/-! ## GeminiService — the report generator boundary

`generateDailyReport` guards on a missing API key / uninitialized client
and wraps the remote call in `try`/`catch`; every failure becomes a fixed
string.  The external `generateContent` call is embedded as its outcome:
`Except.ok text` for a response, `Except.error` for a throw.
-/

/-- The fixed "configuration incomplete" fallback string. -/
def CONFIG_INCOMPLETE_MSG : String :=
  "⚠️ Configuração de IA incompleta. Verifique se a variável de ambiente API_KEY foi definida no painel da Vercel."

/-- The fixed "generation failed" fallback string. -/
def GENERATION_FAILED_MSG : String :=
  "Erro ao gerar relatório inteligente. Verifique a conexão ou a chave de API."

/-- The `GeminiService.generateDailyReport` boundary: with an empty API key (`!ai ||
!apiKey` — the client is only constructed when the key is non-empty) the
configuration fallback is returned; otherwise the remote call's text on
success and the generation fallback on a throw.  Total: the embedding of
"never raises past this boundary". -/
def generateDailyReport (apiKey : String) (callResult : Except String String) : String :=
  if apiKey == "" then CONFIG_INCOMPLETE_MSG
  else
    match callResult with
    | Except.ok text => text
    | Except.error _ => GENERATION_FAILED_MSG

/-! ## Store-level wrappers and iteration harnesses

`saveProduct` reads and writes only the product collection (cloud) or the
`PRODUCTS` key (local); lifting it to the full `Store` records that the
order and table collections are untouched.  `runCreateOrders` iterates the
local `createOrder` over a list of calls.
-/

/-- The local branch of `StorageService.saveProduct` on the full store: only the
`PRODUCTS` key is read and written. -/
def saveProductStore_local (s : Store) (product : Product) : Store :=
  { s with products := saveProduct_local s.products product }

/-- The cloud branch of `StorageService.saveProduct` on the full store (the
second component is the id `addDoc` would generate): only the `products`
collection is touched. -/
def saveProductStore_cloud (s : Store) (call : Product × String) : Store :=
  { s with products := saveProduct_cloud s.products call.1 call.2 }

/-- A sequence of local-mode `createOrder` calls, each given as
`(tableId, items, observation, now)`. -/
def runCreateOrders (s : Store) (calls : List (Int × List (Product × Nat) × String × Nat)) :
    Store :=
  calls.foldl (fun st c => createOrder_local st c.1 c.2.1 c.2.2.1 c.2.2.2) s

/-- A store holding one product with 7 units of stock and one `PENDING`
order for 3 units of it — the scenario exercising stock restoration on
cancellation. -/
def cancelDemo : Store :=
  { products := [⟨"1", "Cerveja Gelada 600ml", "Estupidamente gelada", 15,
      Category.BEBIDAS, 7, ""⟩]
    orders := [⟨"o1", 4, OrderStatus.PENDING, 0,
      [⟨"1", "Cerveja Gelada 600ml", 15, 3⟩], 45, ""⟩]
    tables := [] }

/-! ## Helper lemmas -/

/-- An element read off by `getElem?` is a member of the list. -/
theorem mem_of_getElem?_some {α : Type} {l : List α} {i : Nat} {a : α}
    (h : l[i]? = some a) : a ∈ l := by
  obtain ⟨hlt, rfl⟩ := List.getElem?_eq_some.mp h
  exact List.getElem_mem ..

/-- The search finds nothing when every element fails the predicate. -/
theorem findIndex_eq_none {α : Type} {f : α → Bool} {l : List α}
    (h : ∀ a ∈ l, f a = false) : findIndex f l = none := by
  induction l with
  | nil => rfl
  | cons a as ih =>
    have ha := h a (List.mem_cons_self a as)
    have has : ∀ b ∈ as, f b = false := fun b hb => h b (List.mem_cons_of_mem a hb)
    simp [findIndex, ha, ih has]

/-- When every element of `l` fails the predicate and the appended element
passes it, `findIndex` lands on the appended position. -/
theorem findIndex_append_singleton {α : Type} {f : α → Bool} {l : List α} {a : α}
    (h : ∀ b ∈ l, f b = false) (ha : f a = true) :
    findIndex f (l ++ [a]) = some l.length := by
  induction l with
  | nil => simp [findIndex, ha]
  | cons b bs ih =>
    have hb := h b (List.mem_cons_self b bs)
    have hbs : ∀ c ∈ bs, f c = false := fun c hc => h c (List.mem_cons_of_mem b hc)
    simp [findIndex, hb, ih hbs]

/-- Rewriting at a positive index steps through a cons. -/
theorem modifyAt_cons_succ {α : Type} (b : α) (t : List α) (i : Nat) (f : α → α) :
    modifyAt (b :: t) (i + 1) f = b :: modifyAt t i f := by
  unfold modifyAt
  cases h : t[i]? with
  | none => simp [h]
  | some a => simp [h]

/-- Rewriting at the length of the prefix rewrites the appended element. -/
theorem modifyAt_append_length {α : Type} (l : List α) (a : α) (f : α → α) :
    modifyAt (l ++ [a]) l.length f = l ++ [f a] := by
  induction l with
  | nil => rfl
  | cons b bs ih => simp [List.cons_append, List.length_cons, modifyAt_cons_succ, ih]

/-- Membership after `modifyAt`: the element was there before, or is the
image of one that was. -/
theorem mem_modifyAt {α : Type} {l : List α} {i : Nat} {f : α → α} {b : α}
    (h : b ∈ modifyAt l i f) : b ∈ l ∨ ∃ a, a ∈ l ∧ b = f a := by
  unfold modifyAt at h
  cases hg : l[i]? with
  | none => rw [hg] at h; exact Or.inl h
  | some a =>
    rw [hg] at h
    rcases List.mem_or_eq_of_mem_set h with h' | h'
    · exact Or.inl h'
    · exact Or.inr ⟨a, mem_of_getElem?_some hg, h'⟩

/-- A clamped decrement keeps every stock non-negative, provided the
untouched stocks already were. -/
theorem decStock_nonneg {ps : List Product} {it : Product × Nat}
    (h : ∀ pr ∈ ps, 0 ≤ pr.stock) : ∀ pr ∈ decStock ps it, 0 ≤ pr.stock := by
  intro pr hpr
  unfold decStock at hpr
  cases hf : findIndex (fun p => p.id == it.1.id) ps with
  | none => rw [hf] at hpr; exact h pr hpr
  | some i =>
    rw [hf] at hpr
    rcases mem_modifyAt hpr with h' | ⟨a, _, rfl⟩
    · exact h pr h'
    · exact le_max_left 0 _

/-- Iterating clamped decrements keeps every stock non-negative. -/
theorem foldl_decStock_nonneg :
    ∀ (items : List (Product × Nat)) (ps : List Product),
    (∀ pr ∈ ps, 0 ≤ pr.stock) → ∀ pr ∈ items.foldl decStock ps, 0 ≤ pr.stock := by
  intro items
  induction items with
  | nil => intro ps h; exact h
  | cons it rest ih =>
    intro ps h
    rw [List.foldl_cons]
    exact ih _ (decStock_nonneg h)

/-- The clamped decrement introduces no product with a given absent id. -/
theorem decStock_id_ne {x : String} {ps : List Product} {it : Product × Nat}
    (h : ∀ pr ∈ ps, pr.id ≠ x) : ∀ pr ∈ decStock ps it, pr.id ≠ x := by
  intro pr hpr
  unfold decStock at hpr
  cases hf : findIndex (fun p => p.id == it.1.id) ps with
  | none => rw [hf] at hpr; exact h pr hpr
  | some i =>
    rw [hf] at hpr
    rcases mem_modifyAt hpr with h' | ⟨a, ha, rfl⟩
    · exact h pr h'
    · exact h a ha

/-- Line items whose product id matches no stored product are skipped by
the stock-decrement fold: filtering them out changes nothing. -/
theorem foldl_decStock_skip_unknown {x : String} :
    ∀ (items : List (Product × Nat)) (ps : List Product),
    (∀ pr ∈ ps, pr.id ≠ x) →
    items.foldl decStock ps
      = (items.filter (fun it => !(it.1.id == x))).foldl decStock ps := by
  intro items
  induction items with
  | nil => intro ps _; rfl
  | cons it rest ih =>
    intro ps h
    by_cases hx : it.1.id = x
    · have hnone : findIndex (fun p => p.id == it.1.id) ps = none :=
        findIndex_eq_none (fun pr hpr => by
          rw [hx]; exact beq_eq_false_iff_ne.mpr (h pr hpr))
      have hskip : decStock ps it = ps := by simp [decStock, hnone]
      have hfilter : (it.1.id == x) = true := beq_iff_eq.mpr hx
      rw [List.foldl_cons, hskip, List.filter_cons]
      simp only [hfilter, Bool.not_true, Bool.false_eq_true, if_false]
      exact ih ps h
    · have hpres : ∀ pr ∈ decStock ps it, pr.id ≠ x := decStock_id_ne h
      have hfilter : (it.1.id == x) = false := beq_eq_false_iff_ne.mpr hx
      rw [List.foldl_cons, List.filter_cons]
      simp only [hfilter, Bool.not_false, if_true]
      rw [List.foldl_cons]
      exact ih (decStock ps it) hpres

/-- The running total `createOrder` folds up equals the sum of
price × quantity over the items. -/
theorem foldl_price_total (items : List (Product × Nat)) (acc : ℚ) :
    items.foldl (fun a c => a + c.1.price * (c.2 : ℚ)) acc
      = acc + (items.map (fun i => i.1.price * (i.2 : ℚ))).sum := by
  induction items generalizing acc with
  | nil => simp
  | cons x xs ih =>
    rw [List.foldl_cons, ih, List.map_cons, List.sum_cons]
    ring

/-- Reading back a key just written to the association map yields the
written value. -/
theorem mapGet_mapSet_self (m : List (String × String)) (k v : String) :
    mapGet (mapSet m k v) k = some v := by
  induction m with
  | nil => simp [mapSet, mapGet]
  | cons kv rest ih =>
    obtain ⟨k', v'⟩ := kv
    by_cases h : k' = k
    · simp [mapSet, mapGet, h]
    · have hb : (k' == k) = false := beq_eq_false_iff_ne.mpr h
      simp [mapSet, mapGet, hb, ih]

/-- Overwriting an order's status with its current `PAID` status is the
identity. -/
theorem order_set_status_self {o : Order} (h : o.status = OrderStatus.PAID) :
    { o with status := OrderStatus.PAID } = o := by
  cases o
  subst h
  rfl

/-- Pointwise agreement of the local and cloud per-order finalization: the
local branch reassigns `PAID` to already-`PAID` orders, which is the
identity. -/
theorem finalize_point (tid : Int) (o : Order) :
    (if o.tableId == tid && o.status != OrderStatus.CANCELED
     then { o with status := OrderStatus.PAID } else o)
    = (if o.tableId == tid && o.status != OrderStatus.PAID &&
          o.status != OrderStatus.CANCELED
       then { o with status := OrderStatus.PAID } else o) := by
  by_cases hp : o.status = OrderStatus.PAID
  · rw [order_set_status_self hp]
    simp
  · have hb : (o.status != OrderStatus.PAID) = true := bne_iff_ne.mpr hp
    simp [hb]

/-- The local `saveProduct` store wrapper leaves the order list alone. -/
theorem saveProductStore_local_orders (s : Store) (p : Product) :
    (saveProductStore_local s p).orders = s.orders := rfl

/-- The cloud `saveProduct` store wrapper leaves the order list alone. -/
theorem saveProductStore_cloud_orders (s : Store) (c : Product × String) :
    (saveProductStore_cloud s c).orders = s.orders := rfl

/-- A whole sequence of local `saveProduct` calls leaves the order list
alone. -/
theorem foldl_saveProductStore_local_orders :
    ∀ (saves : List Product) (s : Store),
    (saves.foldl saveProductStore_local s).orders = s.orders := by
  intro saves
  induction saves with
  | nil => intro s; rfl
  | cons p rest ih =>
    intro s
    rw [List.foldl_cons, ih, saveProductStore_local_orders]

/-- A whole sequence of cloud `saveProduct` calls leaves the order list
alone. -/
theorem foldl_saveProductStore_cloud_orders :
    ∀ (saves : List (Product × String)) (s : Store),
    (saves.foldl saveProductStore_cloud s).orders = s.orders := by
  intro saves
  induction saves with
  | nil => intro s; rfl
  | cons c rest ih =>
    intro s
    rw [List.foldl_cons, ih, saveProductStore_cloud_orders]

/-! ## The claims -/

/-- C2: fed the snapshot sequence [status OPEN, status CLOSING_REQUESTED,
record absent], the `subscribeTables` consumer ends with
`isSessionEnded = true`; fed [status OPEN, record absent] with no
intervening CLOSING_REQUESTED it never sets `isSessionEnded` — at no
prefix of that sequence (all prefixes listed) does the flag turn on:
confirmation is edge-triggered on the transition, not on absence alone. -/
theorem clientView_session_end_detection :
    (runSession [some TableStatus.OPEN, some TableStatus.CLOSING_REQUESTED, none]).isSessionEnded
        = true
    ∧ (runSession [some TableStatus.OPEN, none]).isSessionEnded = false
    ∧ (runSession [some TableStatus.OPEN]).isSessionEnded = false
    ∧ (runSession []).isSessionEnded = false := by
  decide

/-- C7: `generateDailyReport` is total — its result is the configuration
fallback string, the generation fallback string, or exactly the text the
external call returned; a throwing call (`Except.error`) is absorbed into
the fallback string, never re-raised. -/
theorem generateDailyReport_never_raises :
    ∀ (apiKey : String) (callResult : Except String String),
    generateDailyReport apiKey callResult = CONFIG_INCOMPLETE_MSG
    ∨ generateDailyReport apiKey callResult = GENERATION_FAILED_MSG
    ∨ ∃ text, callResult = Except.ok text
        ∧ generateDailyReport apiKey callResult = text := by
  intro apiKey callResult
  unfold generateDailyReport
  cases h : (apiKey == "") with
  | true => simp
  | false =>
    cases callResult with
    | ok text => right; right; exact ⟨text, rfl, by simp⟩
    | error e => right; left; simp

/-- C9: in local mode, `updateOrderStatus` on an order id absent from the
stored order list is a complete no-op: the store — order list and product
list alike — is returned unchanged and nothing is raised (the embedding is
total). -/
theorem updateOrderStatus_local_unknown_id_noop :
    ∀ (s : Store) (orderId : String) (status : OrderStatus),
    (∀ o ∈ s.orders, o.id ≠ orderId) →
    updateOrderStatus_local s orderId status = s := by
  intro s orderId status h
  have hnone : findIndex (fun o => o.id == orderId) s.orders = none :=
    findIndex_eq_none (fun o ho => beq_eq_false_iff_ne.mpr (h o ho))
  simp [updateOrderStatus_local, hnone]

/-- Witness for C9: a store with one order `"a"`; updating order `"b"`
changes nothing. -/
theorem updateOrderStatus_local_unknown_id_noop_witness :
    (∀ o ∈ (⟨[], [⟨"a", 1, OrderStatus.PENDING, 0, [], 0, ""⟩], []⟩ : Store).orders,
        o.id ≠ "b")
    ∧ updateOrderStatus_local
        (⟨[], [⟨"a", 1, OrderStatus.PENDING, 0, [], 0, ""⟩], []⟩ : Store) "b"
        OrderStatus.PAID
      = (⟨[], [⟨"a", 1, OrderStatus.PENDING, 0, [], 0, ""⟩], []⟩ : Store) :=
  ⟨by decide, updateOrderStatus_local_unknown_id_noop _ "b" OrderStatus.PAID (by decide)⟩

/-- C5: in local mode, any sequence of `createOrder` calls keeps every
stored product's stock non-negative — the decrement is clamped at zero. -/
theorem createOrder_local_stock_nonneg :
    ∀ (s : Store) (calls : List (Int × List (Product × Nat) × String × Nat)),
    (∀ p ∈ s.products, 0 ≤ p.stock) →
    ∀ p ∈ (runCreateOrders s calls).products, 0 ≤ p.stock := by
  intro s calls
  unfold runCreateOrders
  induction calls generalizing s with
  | nil => intro h; exact h
  | cons c rest ih =>
    intro h
    rw [List.foldl_cons]
    exact ih _ (foldl_decStock_nonneg _ _ h)

/-- Witness for C5: two orders against a one-product store, the second
overdrawing the stock; every stock stays non-negative. -/
theorem createOrder_local_stock_nonneg_witness :
    (∀ p ∈ (⟨[⟨"1", "Cerveja", "", 15, Category.BEBIDAS, 5, ""⟩], [], []⟩ : Store).products,
        0 ≤ p.stock)
    ∧ ∀ p ∈ (runCreateOrders
        (⟨[⟨"1", "Cerveja", "", 15, Category.BEBIDAS, 5, ""⟩], [], []⟩ : Store)
        [(1, [(⟨"1", "Cerveja", "", 15, Category.BEBIDAS, 5, ""⟩, 3)], "", 7),
         (2, [(⟨"1", "Cerveja", "", 15, Category.BEBIDAS, 5, ""⟩, 9)], "", 8)]).products,
        0 ≤ p.stock :=
  ⟨by decide, createOrder_local_stock_nonneg _ _ (by decide)⟩

/-- C4: every order built by `createOrder` snapshots each product's price
into its line items and totals exactly the sum of price × quantity over
them; and any sequence of subsequent `saveProduct` calls — local or cloud,
price changes included — leaves the stored order list (hence every
existing order's line-item prices and total) untouched. -/
theorem createOrder_total_snapshot_immune :
    ∀ (oid : String) (tid : Int) (items : List (Product × Nat)) (obs : String)
      (now : Nat) (s : Store) (savesL : List Product)
      (savesC : List (Product × String)),
    (mkOrder oid tid items obs now).items
        = items.map (fun i =>
            { productId := i.1.id, name := i.1.name, price := i.1.price, quantity := i.2 })
    ∧ (mkOrder oid tid items obs now).total
        = ((mkOrder oid tid items obs now).items.map
            (fun it => it.price * (it.quantity : ℚ))).sum
    ∧ (savesL.foldl saveProductStore_local s).orders = s.orders
    ∧ (savesC.foldl saveProductStore_cloud s).orders = s.orders := by
  intro oid tid items obs now s savesL savesC
  refine ⟨rfl, ?_, foldl_saveProductStore_local_orders savesL s,
    foldl_saveProductStore_cloud_orders savesC s⟩
  have hitems : (mkOrder oid tid items obs now).items = items.map (fun i => ({ productId := i.1.id, name := i.1.name, price := i.1.price, quantity := i.2 } : OrderItem)) := rfl
  rw [hitems, List.map_map]
  show items.foldl (fun acc curr => acc + curr.1.price * (curr.2 : ℚ)) 0 = _
  rw [foldl_price_total, zero_add]
  rfl

/-- C6: in both backend modes, `finalizeTable tableId` removes exactly that
table's session record and maps the order list so that precisely the
orders of that table whose status is neither `PAID` nor `CANCELED` become
`PAID`, every other order — other tables', `CANCELED`, already-`PAID` —
being returned unchanged (the local branch reassigns `PAID` to `PAID`
orders, which is the identity). -/
theorem finalizeTable_both_modes :
    ∀ (s : Store) (tableId : Int),
    (finalizeTable_local s tableId).tables
        = s.tables.filter (fun kv => !(kv.1 == tableId))
    ∧ (finalizeTable_cloud s tableId).tables
        = s.tables.filter (fun kv => !(kv.1 == tableId))
    ∧ (finalizeTable_local s tableId).orders
        = s.orders.map (fun o =>
            if o.tableId == tableId && o.status != OrderStatus.PAID &&
                o.status != OrderStatus.CANCELED
            then { o with status := OrderStatus.PAID } else o)
    ∧ (finalizeTable_cloud s tableId).orders
        = s.orders.map (fun o =>
            if o.tableId == tableId && o.status != OrderStatus.PAID &&
                o.status != OrderStatus.CANCELED
            then { o with status := OrderStatus.PAID } else o) := by
  intro s tableId
  refine ⟨rfl, rfl, ?_, rfl⟩
  exact List.map_congr_left (fun o _ => finalize_point tableId o)

/-- C1: the claim's "in both backend modes" fails on the cloud branch —
whose own comment reads "If cancelled, restore stock logic (omitted for
brevity)".  On `cancelDemo` (stock 7, one `PENDING` order for 3 units),
the cloud cancel marks the order `CANCELED` but leaves the stock at 7,
while the local cancel restores it to 10 and a second local cancel is a
stock no-op as claimed. -/
theorem updateOrderStatus_cancel_cloud_no_restock :
    (updateOrderStatus_cloud cancelDemo "o1" OrderStatus.CANCELED).products.map
        Product.stock = [7]
    ∧ (updateOrderStatus_cloud cancelDemo "o1" OrderStatus.CANCELED).orders.map
        Order.status = [OrderStatus.CANCELED]
    ∧ (updateOrderStatus_local cancelDemo "o1" OrderStatus.CANCELED).products.map
        Product.stock = [10]
    ∧ (updateOrderStatus_local
        (updateOrderStatus_local cancelDemo "o1" OrderStatus.CANCELED) "o1"
        OrderStatus.CANCELED).products.map Product.stock = [10] := by
  decide

/-- C10: in local mode, `createOrder` with a line item whose product id
matches nothing in the store still appends the full order (the unknown
item snapshotted among its line items, its price inside the total), and
the stock fold is unaffected by the unknown item — filtering every
occurrence of its id out of the items changes no product. -/
theorem createOrder_local_unknown_product_skipped :
    ∀ (s : Store) (tid : Int) (items : List (Product × Nat)) (obs : String)
      (now : Nat) (p : Product) (q : Nat),
    (p, q) ∈ items →
    (∀ pr ∈ s.products, pr.id ≠ p.id) →
    (createOrder_local s tid items obs now).orders
        = s.orders ++ [mkOrder (toString now) tid items obs now]
    ∧ ({ productId := p.id, name := p.name, price := p.price, quantity := q } : OrderItem)
        ∈ (mkOrder (toString now) tid items obs now).items
    ∧ (mkOrder (toString now) tid items obs now).total
        = (items.map (fun i => i.1.price * (i.2 : ℚ))).sum
    ∧ (createOrder_local s tid items obs now).products
        = (items.filter (fun it => !(it.1.id == p.id))).foldl decStock s.products := by
  intro s tid items obs now p q hmem h
  refine ⟨rfl, List.mem_map_of_mem _ hmem, ?_,
    foldl_decStock_skip_unknown items s.products h⟩
  show items.foldl (fun acc curr => acc + curr.1.price * (curr.2 : ℚ)) 0 = _
  rw [foldl_price_total, zero_add]

/-- Witness for C10: ordering 3 units of an uncatalogued product `"zz"`
against a store knowing only product `"1"`. -/
theorem createOrder_local_unknown_product_skipped_witness :
    ((⟨"zz", "Bolo", "", 2, Category.TIRA_GOSTO, 1, ""⟩, 3) ∈
        [((⟨"zz", "Bolo", "", 2, Category.TIRA_GOSTO, 1, ""⟩ : Product), 3)])
    ∧ (∀ pr ∈ (⟨[⟨"1", "Cerveja", "", 15, Category.BEBIDAS, 5, ""⟩], [], []⟩ : Store).products,
        pr.id ≠ "zz")
    ∧ ((createOrder_local (⟨[⟨"1", "Cerveja", "", 15, Category.BEBIDAS, 5, ""⟩], [], []⟩ : Store)
          4 [(⟨"zz", "Bolo", "", 2, Category.TIRA_GOSTO, 1, ""⟩, 3)] "" 9).orders
        = [] ++ [mkOrder (toString 9) 4
            [(⟨"zz", "Bolo", "", 2, Category.TIRA_GOSTO, 1, ""⟩, 3)] "" 9]
      ∧ ({ productId := "zz", name := "Bolo", price := 2, quantity := 3 } : OrderItem)
          ∈ (mkOrder (toString 9) 4
              [(⟨"zz", "Bolo", "", 2, Category.TIRA_GOSTO, 1, ""⟩, 3)] "" 9).items
      ∧ (mkOrder (toString 9) 4
          [(⟨"zz", "Bolo", "", 2, Category.TIRA_GOSTO, 1, ""⟩, 3)] "" 9).total
          = ([(((⟨"zz", "Bolo", "", 2, Category.TIRA_GOSTO, 1, ""⟩ : Product), 3))].map
              (fun i => i.1.price * (i.2 : ℚ))).sum
      ∧ (createOrder_local (⟨[⟨"1", "Cerveja", "", 15, Category.BEBIDAS, 5, ""⟩], [], []⟩ : Store)
          4 [(⟨"zz", "Bolo", "", 2, Category.TIRA_GOSTO, 1, ""⟩, 3)] "" 9).products
          = ([((⟨"zz", "Bolo", "", 2, Category.TIRA_GOSTO, 1, ""⟩ : Product), 3)].filter
              (fun it => !(it.1.id == "zz"))).foldl decStock
              (⟨[⟨"1", "Cerveja", "", 15, Category.BEBIDAS, 5, ""⟩], [], []⟩ : Store).products) :=
  ⟨by decide, by decide,
    createOrder_local_unknown_product_skipped
      (⟨[⟨"1", "Cerveja", "", 15, Category.BEBIDAS, 5, ""⟩], [], []⟩ : Store) 4
      [((⟨"zz", "Bolo", "", 2, Category.TIRA_GOSTO, 1, ""⟩ : Product), 3)] "" 9
      (⟨"zz", "Bolo", "", 2, Category.TIRA_GOSTO, 1, ""⟩ : Product) 3
      (by decide) (by decide)⟩

/-- C8 counterexample to the claim as stated, at `value = ""` under storage
denial: `setItem` does record the empty string in the memory map, but
`getItem` then returns `null` — the JS fallback `memoryStore.get(key) ||
null` collapses a stored empty string to `null` — so "getItem then returns
that value" fails. -/
theorem safeStorage_empty_value_counterexample :
    mapGet (safeSetItem ⟨[], [], true⟩ "chave" "").memoryStore "chave" = some ""
    ∧ ¬ (safeGetItem (safeSetItem ⟨[], [], true⟩ "chave" "") "chave" = some "") := by
  constructor
  · rfl
  · decide

/-- C8 (amended to non-empty values): for every state, key and non-empty
value, `safeStorage.setItem` records the value in the volatile memory map —
durable-storage denial included — and `safeStorage.getItem` then returns
it; the operations are total functions (every raw storage access is
wrapped, nothing propagates to the caller). -/
theorem safeStorage_set_get_roundtrip :
    ∀ (s : StorageState) (k v : String), v ≠ "" →
    mapGet (safeSetItem s k v).memoryStore k = some v
    ∧ safeGetItem (safeSetItem s k v) k = some v := by
  intro s k v hv
  have hvb : (v == "") = false := beq_eq_false_iff_ne.mpr hv
  obtain ⟨mem, lsd, dn⟩ := s
  cases dn with
  | true =>
    refine ⟨?_, ?_⟩
    · simp [safeSetItem, lsSetItem, mapGet_mapSet_self]
    · simp [safeSetItem, lsSetItem, safeGetItem, lsGetItem, memGetOrNull,
        mapGet_mapSet_self, hvb]
  | false =>
    refine ⟨?_, ?_⟩
    · simp [safeSetItem, lsSetItem, mapGet_mapSet_self]
    · simp [safeSetItem, lsSetItem, safeGetItem, lsGetItem, mapGet_mapSet_self]

/-- Witness for C8: write-then-read of `"pedidos"` under denied durable
storage. -/
theorem safeStorage_set_get_roundtrip_witness :
    ("pedidos" : String) ≠ ""
    ∧ mapGet (safeSetItem ⟨[], [], true⟩ "beach_app_orders" "pedidos").memoryStore
        "beach_app_orders" = some "pedidos"
    ∧ safeGetItem (safeSetItem ⟨[], [], true⟩ "beach_app_orders" "pedidos")
        "beach_app_orders" = some "pedidos" :=
  ⟨by decide,
    safeStorage_set_get_roundtrip ⟨[], [], true⟩ "beach_app_orders" "pedidos" (by decide)⟩

/-- C3 counterexample to the claim as stated: local mode, two same-name
products with unrecognized ids — the merged entry keeps the FIRST
product's description and image (the local branch overwrites only stock
and price), not the second's as claimed. -/
theorem saveProduct_local_merge_keeps_old_description :
    saveProduct_local
        (saveProduct_local [] ⟨"a", "X", "d1", 1, Category.BEBIDAS, 2, "i1"⟩)
        ⟨"b", "X", "d2", 3, Category.BEBIDAS, 4, "i2"⟩
      = [⟨"a", "X", "d1", 3, Category.BEBIDAS, 6, "i1"⟩]
    ∧ ("d1" : String) ≠ "d2" ∧ ("i1" : String) ≠ "i2" := by
  refine ⟨by decide, by decide, by decide⟩

/-- C3 (amended): saving two same-name products, neither identifier
recognized as existing, against a store with no product of that name,
leaves exactly one product of that name, with stock the sum of the two
input stocks and price the second's; the cloud branch additionally takes
the second's description and — only when non-empty — its image, while the
local branch keeps the first's description and image. -/
theorem saveProduct_merge_on_name_both_modes :
    ∀ (store : List Product) (p1 p2 : Product) (fresh1 fresh2 : String),
    p2.name = p1.name →
    (∀ p ∈ store, p.name ≠ p1.name) →
    (∀ p ∈ store, p.id ≠ p1.id) →
    (∀ p ∈ store, p.id ≠ p2.id) →
    p2.id ≠ p1.id →
    p1.id.length ≤ 10 →
    p2.id.length ≤ 10 →
    saveProduct_local (saveProduct_local store p1) p2
      = store ++ [{ p1 with stock := p1.stock + p2.stock, price := p2.price }]
    ∧ ((saveProduct_local (saveProduct_local store p1) p2).filter
        (fun p => p.name == p1.name)).length = 1
    ∧ saveProduct_cloud (saveProduct_cloud store p1 fresh1) p2 fresh2
      = store ++ [{ p1 with id := fresh1, stock := p1.stock + p2.stock, price := p2.price, description := p2.description, imageUrl := if p2.imageUrl == "" then p1.imageUrl else p2.imageUrl }]
    ∧ ((saveProduct_cloud (saveProduct_cloud store p1 fresh1) p2 fresh2).filter
        (fun p => p.name == p1.name)).length = 1 := by
  intro store p1 p2 fresh1 fresh2 hname hnameS hid1 hid2 hid12 hlen1 hlen2
  have hstore_nil : store.filter (fun p => p.name == p1.name) = [] :=
    List.filter_eq_nil_iff.mpr (fun p hp => by simpa using hnameS p hp)
  have l1 : saveProduct_local store p1 = store ++ [p1] := by
    have e1 : findIndex (fun p => p.id == p1.id) store = none :=
      findIndex_eq_none (fun p hp => beq_eq_false_iff_ne.mpr (hid1 p hp))
    have e2 : findIndex (fun p => p.name == p1.name && p.id != p1.id) store = none :=
      findIndex_eq_none (fun p hp => by
        have hb : (p.name == p1.name) = false := beq_eq_false_iff_ne.mpr (hnameS p hp)
        simp [hb])
    simp [saveProduct_local, e1, e2]
  have l2 : saveProduct_local (store ++ [p1]) p2
      = store ++ [{ p1 with stock := p1.stock + p2.stock, price := p2.price }] := by
    have e1 : findIndex (fun p => p.id == p2.id) (store ++ [p1]) = none :=
      findIndex_eq_none (fun p hp => by
        rcases List.mem_append.mp hp with h' | h'
        · exact beq_eq_false_iff_ne.mpr (hid2 p h')
        · have hp1 : p = p1 := by simpa using h'
          subst hp1
          exact beq_eq_false_iff_ne.mpr (Ne.symm hid12))
    have e2 : findIndex (fun p => p.name == p2.name && p.id != p2.id) (store ++ [p1])
        = some store.length := by
      apply findIndex_append_singleton
      · intro b hb
        have hb' : (b.name == p2.name) = false := by
          rw [hname]
          exact beq_eq_false_iff_ne.mpr (hnameS b hb)
        simp [hb']
      · have h1 : (p1.name == p2.name) = true := beq_iff_eq.mpr hname.symm
        have h2 : (p1.id != p2.id) = true := bne_iff_ne.mpr (Ne.symm hid12)
        simp [h1, h2]
    simp [saveProduct_local, e1, e2, modifyAt_append_length]
  have hgt1 : ¬ (p1.id.length > 10) := by omega
  have hgt2 : ¬ (p2.id.length > 10) := by omega
  have c1 : saveProduct_cloud store p1 fresh1 = store ++ [{ p1 with id := fresh1 }] := by
    have e : findIndex (fun p => p.name == p1.name) store = none :=
      findIndex_eq_none (fun p hp => beq_eq_false_iff_ne.mpr (hnameS p hp))
    simp [saveProduct_cloud, hgt1, e]
  have c2 : saveProduct_cloud (store ++ [{ p1 with id := fresh1 }]) p2 fresh2
      = store ++ [{ p1 with id := fresh1, stock := p1.stock + p2.stock, price := p2.price, description := p2.description, imageUrl := if p2.imageUrl == "" then p1.imageUrl else p2.imageUrl }] := by
    have e : findIndex (fun p => p.name == p2.name) (store ++ [{ p1 with id := fresh1 }])
        = some store.length := by
      apply findIndex_append_singleton
      · intro b hb
        rw [hname]
        exact beq_eq_false_iff_ne.mpr (hnameS b hb)
      · show (p1.name == p2.name) = true
        exact beq_iff_eq.mpr hname.symm
    simp [saveProduct_cloud, hgt2, e, modifyAt_append_length]
  refine ⟨?_, ?_, ?_, ?_⟩
  · rw [l1]; exact l2
  · rw [l1, l2]; simp [List.filter_append, hstore_nil]
  · rw [c1]; exact c2
  · rw [c1, c2]; simp [List.filter_append, hstore_nil]

/-- Witness for C3 (amended): two products named `"X"` with short distinct
ids against the empty store, in both modes. -/
theorem saveProduct_merge_on_name_both_modes_witness :
    (("X" : String) = "X")
    ∧ (∀ p ∈ ([] : List Product), p.name ≠ "X")
    ∧ (∀ p ∈ ([] : List Product), p.id ≠ "a")
    ∧ (∀ p ∈ ([] : List Product), p.id ≠ "b")
    ∧ (("b" : String) ≠ "a")
    ∧ ("a".length ≤ 10)
    ∧ ("b".length ≤ 10)
    ∧ (saveProduct_local
          (saveProduct_local [] ⟨"a", "X", "d1", 1, Category.BEBIDAS, 2, "i1"⟩)
          ⟨"b", "X", "d2", 3, Category.BEBIDAS, 4, "i2"⟩
        = [] ++ [⟨"a", "X", "d1", 3, Category.BEBIDAS, 6, "i1"⟩]
      ∧ ((saveProduct_local
            (saveProduct_local [] ⟨"a", "X", "d1", 1, Category.BEBIDAS, 2, "i1"⟩)
            ⟨"b", "X", "d2", 3, Category.BEBIDAS, 4, "i2"⟩).filter
          (fun p => p.name == "X")).length = 1
      ∧ saveProduct_cloud
          (saveProduct_cloud [] ⟨"a", "X", "d1", 1, Category.BEBIDAS, 2, "i1"⟩ "f1")
          ⟨"b", "X", "d2", 3, Category.BEBIDAS, 4, "i2"⟩ "f2"
        = [] ++ [⟨"f1", "X", "d2", 3, Category.BEBIDAS, 6, "i2"⟩]
      ∧ ((saveProduct_cloud
            (saveProduct_cloud [] ⟨"a", "X", "d1", 1, Category.BEBIDAS, 2, "i1"⟩ "f1")
            ⟨"b", "X", "d2", 3, Category.BEBIDAS, 4, "i2"⟩ "f2").filter
          (fun p => p.name == "X")).length = 1) :=
  ⟨by decide, by decide, by decide, by decide, by decide, by decide, by decide,
    saveProduct_merge_on_name_both_modes []
      ⟨"a", "X", "d1", 1, Category.BEBIDAS, 2, "i1"⟩
      ⟨"b", "X", "d2", 3, Category.BEBIDAS, 4, "i2"⟩ "f1" "f2"
      (by decide) (by decide) (by decide) (by decide) (by decide) (by decide) (by decide)⟩
